import Mathlib

/-!
Verification development for the laterpay client library
(src/laterpay/init module). The Python source is shallowly embedded:
pure functions become Lean functions, the HTTP transport is stubbed by an
explicit transport-result value, and the mutable session token is threaded
as explicit client state. The signing module and the compat module of the
repository are not under src, so they are modelled from the spec where
noted.
-/

namespace LaterPay

/-- Scalar or list parameter values, as allowed by the Parameter Map data
model (strings, integers, lists of strings, and the Python None that the
client stores under keys such as lptoken and cp). -/
inductive Value where
  | str (s : String)
  | int (n : Int)
  | list (l : List String)
  | null
deriving DecidableEq

/-- A Parameter Map: an insertion-ordered mapping from string keys to
values, embedding the Python dicts the client builds. -/
def ParamMap := List (String × Value)

instance : DecidableEq ParamMap := by
  unfold ParamMap
  infer_instance

/-- Python dict assignment d[k] = v: replace the value in place when the
key exists, append the pair otherwise. -/
def setk : ParamMap → String → Value → ParamMap
  | [], k, v => [(k, v)]
  | (k1, v1) :: rest, k, v =>
      if k1 = k then (k, v) :: rest else (k1, v1) :: setk rest k v

/-- Python dict lookup d.get(k). -/
def getk : ParamMap → String → Option Value
  | [], _ => none
  | (k1, v) :: rest, k => if k1 = k then some v else getk rest k

/-- Lift an optional string to a parameter value (Python None for absent). -/
def optVal : Option String → Value
  | some s => Value.str s
  | none => Value.null

/-! ### Character and byte helpers (embedding Python string builtins) -/

/-- ASCII uppercase test, as the source writes it: 65 <= ord(c) <= 90. -/
def isUpperAscii (c : Char) : Bool :=
  Nat.ble 65 c.toNat && Nat.ble c.toNat 90

/-- ASCII digit test, the \d class of the Python 2 re module. -/
def isDigitCh (c : Char) : Bool :=
  Nat.ble 48 c.toNat && Nat.ble c.toNat 57

/-- ASCII lowercase conversion for URL host canonicalization. -/
def toLowerAscii (c : Char) : Char :=
  if isUpperAscii c then Char.ofNat (c.toNat + 32) else c

/-- UTF-8 bytes of one character, for percent-encoding. -/
def utf8Bytes (c : Char) : List Nat :=
  let n := c.toNat
  if n < 128 then [n]
  else if n < 2048 then [192 + n / 64, 128 + n % 64]
  else if n < 65536 then [224 + n / 4096, 128 + (n / 64) % 64, 128 + n % 64]
  else [240 + n / 262144, 128 + (n / 4096) % 64, 128 + (n / 64) % 64, 128 + n % 64]

/-- Bytes left untouched by urllib quoting: letters, digits, and the three
characters underscore, dot, hyphen. -/
def isSafeByte (b : Nat) : Bool :=
  (Nat.ble 48 b && Nat.ble b 57) || (Nat.ble 65 b && Nat.ble b 90) ||
  (Nat.ble 97 b && Nat.ble b 122) || b == 95 || b == 46 || b == 45

/-- Uppercase hexadecimal digit. -/
def hexDigitChar (n : Nat) : Char :=
  if n < 10 then Char.ofNat (48 + n) else Char.ofNat (55 + n)

/-- Concatenate the chunks a function yields for each element. -/
def flatAll : List α → (α → List Char) → List Char
  | [], _ => []
  | a :: as, f => f a ++ flatAll as f

/-- quote_plus encoding of one byte: safe bytes stay, a space becomes a
plus, everything else becomes a percent escape. -/
def encBytePlus (b : Nat) : List Char :=
  if isSafeByte b then [Char.ofNat b]
  else if b == 32 then ['+']
  else ['%', hexDigitChar (b / 16), hexDigitChar (b % 16)]

/-- Modelled from the spec: compat.quote_plus (the compat module is not
under src). It percent-encodes an inner URL as a single query parameter,
with the urllib quote_plus byte rules (space to plus, safe bytes kept). -/
def quote_plus (s : String) : String :=
  String.mk (flatAll s.toList (fun c => flatAll (utf8Bytes c) encBytePlus))

/-- Strict percent-encoding of one byte for the signing canonicalization:
like quote_plus but a space becomes percent two zero, never a plus. -/
def encByteStrict (b : Nat) : List Char :=
  if isSafeByte b then [Char.ofNat b]
  else ['%', hexDigitChar (b / 16), hexDigitChar (b % 16)]

/-- Strict percent-encoding of a string (space to percent two zero). -/
def encStrict (s : String) : String :=
  String.mk (flatAll s.toList (fun c => flatAll (utf8Bytes c) encByteStrict))

/-! ### The Signer, modelled from the spec -/

/-- Render a scalar parameter value the way Python str does before
encoding; list values are flattened elsewhere. -/
def valueStrings : Value → List String
  | Value.str s => [s]
  | Value.int n => [toString n]
  | Value.list l => l
  | Value.null => ["None"]

/-- Flatten a parameter map into repeated key-value string pairs, list
values expanding to repeated keys in their original order. -/
def flattenPairs : ParamMap → List (String × String)
  | [] => []
  | (k, v) :: rest => (valueStrings v).map (fun s => (k, s)) ++ flattenPairs rest

/-- Insert one pair into a list sorted lexicographically by key. -/
def insertSorted (p : String × String) : List (String × String) → List (String × String)
  | [] => [p]
  | q :: rest => if p.1 < q.1 then p :: q :: rest else q :: insertSorted p rest

/-- Sort key-value pairs lexicographically by key. -/
def sortPairs (l : List (String × String)) : List (String × String) :=
  l.foldr insertSorted []

/-- One encoded key equals value component of a query string. -/
def renderPair (p : String × String) : String :=
  encStrict p.1 ++ "=" ++ encStrict p.2

/-- Join the tail components of a query string, each preceded by an
ampersand. -/
def joinAmpAux : List String → String
  | [] => ""
  | x :: xs => "&" ++ x ++ joinAmpAux xs

/-- Join query string components with ampersands. -/
def joinAmp : List String → String
  | [] => ""
  | x :: xs => x ++ joinAmpAux xs

/-- Scan forward to the character list after the scheme separator, if a
colon slash slash separator occurs. -/
def schemeSplit : List Char → Option (List Char)
  | [] => none
  | ':' :: '/' :: '/' :: rest => some rest
  | _ :: rest => schemeSplit rest

/-- Modelled from the spec: the canonical host plus path of the signed URL
with the scheme dropped and the host lowercased (signing module not under
src). -/
def host_path (url : String) : String :=
  match schemeSplit url.toList with
  | none => url
  | some rest =>
      let host := rest.takeWhile (fun c => !(c = '/'))
      let path := rest.dropWhile (fun c => !(c = '/'))
      String.mk (host.map toLowerAscii ++ path)

/-- Modelled from the spec: the HMAC digest of the canonical string, hex
encoded (signing module not under src). The spec fixes only that the
digest is a deterministic function of the secret and the canonical string;
an explicit deterministic stand-in digest represents the fixed
cryptographic hash. -/
def hmacHex (secret msg : String) : String :=
  let h := (secret ++ "|" ++ msg).toList.foldl
    (fun a c => (a * 131 + c.toNat) % 340282366920938463463374607431768211297) 7
  String.mk (Nat.toDigits 16 h)

/-- Modelled from the spec: signing.sign_and_encode (signing module not
under src). Injects the signing timestamp and a hash algorithm identifier,
canonicalizes by sorting keys and flattening lists with strict percent
encoding, digests METHOD newline host path newline query with the secret,
and re-serializes the full parameter set with the digest appended as the
hmac parameter, under the same sort and encode rule. The wall clock second
is passed in as ts. -/
def sign_and_encode (secret : String) (params : ParamMap) (url : String)
    (method : String) (ts : Nat) : String :=
  let ps := setk (setk params "ts" (Value.int ts)) "alg" (Value.str "HMAC_SHA224")
  let flat := flattenPairs ps
  let canonQuery := joinAmp ((sortPairs flat).map renderPair)
  let msg := method ++ "\n" ++ host_path url ++ "\n" ++ canonQuery
  let digest := hmacHex secret msg
  joinAmp ((sortPairs (flat ++ [("hmac", digest)])).map renderPair)

/-! ### The client and its URL builders (from src/laterpay/init) -/

/-- LaterPayClient: provider credentials, API and web roots, and the
mutable session token threaded as explicit state. Constructor argument
order follows the source. -/
structure Client where
  cp_key : String
  shared_secret : String
  api_root : String
  web_root : String
  lptoken : Option String
deriving DecidableEq

/-- Replace the stored session token. -/
def setToken (c : Client) (t : Option String) : Client :=
  Client.mk c.cp_key c.shared_secret c.api_root c.web_root t

def access_url (c : Client) : String := c.api_root ++ "/access"

def add_url (c : Client) : String := c.api_root ++ "/add"

def identify_url (c : Client) : String := c.api_root ++ "/identify"

def gettoken_url (c : Client) : String := c.api_root ++ "/gettoken"

/-- get_gettoken_redirect: sign the redirect parameters and append them to
the gettoken endpoint. -/
def get_gettoken_redirect (c : Client) (return_to : String) (ts : Nat) : String :=
  let url := gettoken_url c
  let data : ParamMap := [("redir", Value.str return_to), ("cp", Value.str c.cp_key)]
  url ++ "?" ++ sign_and_encode c.shared_secret data url "GET" ts

/-- get_identify_url: sign the provider key plus optional callback and
append to the identify endpoint. -/
def get_identify_url (c : Client) (identify_callback : Option String) (ts : Nat) : String :=
  let base_url := identify_url c
  let data : ParamMap :=
    match identify_callback with
    | some cb => setk [("cp", Value.str c.cp_key)] "callback_url" (Value.str cb)
    | none => [("cp", Value.str c.cp_key)]
  base_url ++ "?" ++ sign_and_encode c.shared_secret data base_url "GET" ts

/-- get_controls_links_url: assemble the controls links options, sign and
append. The ten random letters of the xdm parameter are supplied as xdm. -/
def get_controls_links_url (c : Client) (next_url : String)
    (css_url forcelang : Option String)
    (show_greeting show_long_greeting show_login show_signup show_long_signup
      use_jsevents : Bool) (xdm : String) (ts : Nat) : String :=
  let data : ParamMap := [("next", Value.str next_url)]
  let data := setk data "cp" (Value.str c.cp_key)
  let data := match forcelang with
    | some fl => setk data "forcelang" (Value.str fl)
    | none => data
  let data := match css_url with
    | some cs => setk data "css" (Value.str cs)
    | none => data
  let data := if use_jsevents then setk data "jsevents" (Value.str "1") else data
  let getShow (d : ParamMap) : String :=
    match getk d "show" with
    | some (Value.str s) => s
    | _ => ""
  let data := if show_long_greeting then setk data "show" (Value.str (getShow data ++ "gg"))
    else if show_greeting then setk data "show" (Value.str (getShow data ++ "g"))
    else data
  let data := if show_login then setk data "show" (Value.str (getShow data ++ "l")) else data
  let data := if show_long_signup then setk data "show" (Value.str (getShow data ++ "ss"))
    else if show_signup then setk data "show" (Value.str (getShow data ++ "s"))
    else data
  let data := setk data "xdmprefix" (Value.str xdm)
  let url := c.web_root ++ "/controls/links"
  url ++ "?" ++ sign_and_encode c.shared_secret data url "GET" ts

/-- get_controls_balance_url: assemble the balance options, sign and
append. -/
def get_controls_balance_url (c : Client) (forcelang : Option String)
    (xdm : String) (ts : Nat) : String :=
  let data : ParamMap := [("cp", Value.str c.cp_key)]
  let data := match forcelang with
    | some fl => setk data "forcelang" (Value.str fl)
    | none => data
  let data := setk data "xdmprefix" (Value.str xdm)
  let base_url := c.web_root ++ "/controls/balance"
  base_url ++ "?" ++ sign_and_encode c.shared_secret data base_url "GET" ts

/-- The dialog-api indirection: wrap an inner URL, percent encoded as a
single query parameter. -/
def get_dialog_api_url (c : Client) (url : String) : String :=
  c.web_root ++ "/dialog-api?url=" ++ quote_plus url

/-- get_login_dialog_url: build the account login dialog URL directly from
next_url, the optional jsevents flag and the provider key, then wrap it in
the dialog-api indirection. No signing is involved in the source. -/
def get_login_dialog_url (c : Client) (next_url : String) (use_jsevents : Bool) : String :=
  get_dialog_api_url c
    (c.web_root ++ "/account/dialog/login?next=" ++ quote_plus next_url ++
      (if use_jsevents then "&jsevents=1" else "") ++ "&cp=" ++ c.cp_key)

/-- get_signup_dialog_url, built like the login dialog URL. -/
def get_signup_dialog_url (c : Client) (next_url : String) (use_jsevents : Bool) : String :=
  get_dialog_api_url c
    (c.web_root ++ "/account/dialog/signup?next=" ++ quote_plus next_url ++
      (if use_jsevents then "&jsevents=1" else "") ++ "&cp=" ++ c.cp_key)

/-- get_logout_dialog_url, built like the login dialog URL. -/
def get_logout_dialog_url (c : Client) (next_url : String) (use_jsevents : Bool) : String :=
  get_dialog_api_url c
    (c.web_root ++ "/account/dialog/logout?next=" ++ quote_plus next_url ++
      (if use_jsevents then "&jsevents=1" else "") ++ "&cp=" ++ c.cp_key)

/-! ### The transport layer and the session protocol -/

/-- The JSON object the remote API answers with, restricted to the fields
the client reads: status, new_token, articles, exceeded, subs. A none
field is absent from the object. -/
structure Response where
  status : Option String
  new_token : Option String
  articles : Option (List (String × Bool))
  exceeded : Option Bool
  subs : Option (List String)
deriving DecidableEq

/-- The outcome of the one HTTP round trip inside make_request: a parsed
JSON body, a URLError from the transport, or any other exception. The
transport is stubbed, so the outcome is an input of the embedding. -/
inductive TransportResult where
  | ok (body : Response)
  | urlError
  | otherError
deriving DecidableEq

/-- The make_request method: dispatch the signed request (the request
construction itself is transport input here), convert transport failures
into synthetic status responses, then apply the token lifecycle hooks:
adopt a new_token field, and clear the token on an invalid_token status. -/
def make_request (c : Client) (_url : String) (_params : ParamMap)
    (_method : String) (tr : TransportResult) : Response × Client :=
  let resp : Response :=
    match tr with
    | TransportResult.ok body => body
    | TransportResult.urlError => Response.mk (some "connection_error") none none none none
    | TransportResult.otherError => Response.mk (some "unexpected error") none none none none
  let c1 :=
    match resp.new_token with
    | some t => setToken c (some t)
    | none => c
  let c2 := if resp.status = some "invalid_token" then setToken c1 none else c1
  (resp, c2)

/-- Article ids as the access operations accept them: either one id or a
collection of ids. -/
inductive ArticleIds where
  | single (id : String)
  | many (ids : List String)
deriving DecidableEq

/-- The normalization both access operations perform: a single id becomes
a one-element collection. -/
def normalizeIds : ArticleIds → List String
  | ArticleIds.single s => [s]
  | ArticleIds.many l => l

/-- The parameters get_access assembles. -/
def accessParams (c : Client) (ids : List String) (product_key : Option String) : ParamMap :=
  let params : ParamMap :=
    [("lptoken", optVal c.lptoken), ("cp", Value.str c.cp_key),
     ("article_id", Value.list ids)]
  match product_key with
  | some pk => setk params "product" (Value.str pk)
  | none => params

/-- Failures of get_access: a missing status key (Python KeyError) or the
generic exception carrying the unexpected status. -/
inductive AccessErr where
  | keyError
  | generic (status : String)
deriving DecidableEq

/-- get_access: normalize the ids, issue the signed GET through the
stubbed transport, check the status against the fixed allow list, and
return the raw response on success. -/
def get_access (c : Client) (article_ids : ArticleIds) (product_key : Option String)
    (tr : TransportResult) : Except AccessErr Response × Client :=
  let ids := normalizeIds article_ids
  let params := accessParams c ids product_key
  let (data, c1) := make_request c (access_url c) params "GET" tr
  match data.status with
  | none => (Except.error AccessErr.keyError, c1)
  | some s =>
      if s = "ok" ∨ s = "invalid_token" ∨ s = "connection_error" then (Except.ok data, c1)
      else (Except.error (AccessErr.generic s), c1)

/-- The parameters get_metered_access assembles. -/
def meteredParams (c : Client) (ids : List String) (threshold : Int)
    (product_key : Option String) : ParamMap :=
  let params : ParamMap :=
    [("lptoken", optVal c.lptoken), ("cp", Value.str c.cp_key),
     ("article_id", Value.list ids), ("feature", Value.str "metered"),
     ("threshold", Value.int threshold), ("period", Value.str "monthly")]
  match product_key with
  | some pk => setk params "product" (Value.str pk)
  | none => params

/-- Failures of get_metered_access: a missing key (Python KeyError), the
typed InvalidTokenException, or the bare generic Exception. -/
inductive MeteredErr where
  | keyError
  | invalidToken
  | generic
deriving DecidableEq

/-- get_metered_access: normalize the ids, issue the signed GET through
the stubbed transport, raise the typed invalid token error or the generic
error by status, and on ok return the triple of granted articles, the
exceeded flag defaulting to false, and the subs list defaulting to empty. -/
def get_metered_access (c : Client) (article_ids : ArticleIds) (threshold : Int)
    (product_key : Option String) (tr : TransportResult) :
    Except MeteredErr (List (String × Bool) × Bool × List String) × Client :=
  let ids := normalizeIds article_ids
  let params := meteredParams c ids threshold product_key
  let (data, c1) := make_request c (access_url c) params "GET" tr
  let subs := data.subs.getD []
  match data.status with
  | none => (Except.error MeteredErr.keyError, c1)
  | some s =>
      if s = "invalid_token" then (Except.error MeteredErr.invalidToken, c1)
      else if s ≠ "ok" then (Except.error MeteredErr.generic, c1)
      else
        match data.articles with
        | none => (Except.error MeteredErr.keyError, c1)
        | some arts => (Except.ok (arts, data.exceeded.getD false, subs), c1)

/-! ### Item definition validation (ItemDefinition.init in the source) -/

/-- Construction failures of ItemDefinition, one constructor per distinct
message of the source: the pricing message carries the whole pricing
string, the vat length message carries the offending token, and the vat
country and number messages carry the whole vat string. -/
inductive ItemErr where
  | pricingInvalid (pricing : String)
  | vatLength (tok : String)
  | vatCountry (vat : String)
  | vatNumber (vat : String)
deriving DecidableEq

/-- Helper for splitComma: accumulate the current token in reverse. -/
def splitCommaL (cur : List Char) : List Char → List String
  | [] => [String.mk cur.reverse]
  | c :: rest =>
      if c = ',' then String.mk cur.reverse :: splitCommaL [] rest
      else splitCommaL (c :: cur) rest

/-- The Python split on a comma: keeps empty tokens, and the empty string
splits to the one element list of the empty string. -/
def splitComma (s : String) : List String :=
  splitCommaL [] s.data

/-- The pricing token check of the source: re.match of three uppercase
letters then one or more digits. re.match anchors at the start only, so
the check asks for three uppercase letters and a digit as a prefix and
ignores everything after them. -/
def pricingTokOk (s : String) : Bool :=
  match s.toList with
  | c0 :: c1 :: c2 :: c3 :: _ =>
      isUpperAscii c0 && isUpperAscii c1 && isUpperAscii c2 && isDigitCh c3
  | _ => false

/-- Scan the pricing tokens, failing on the first mismatch with the
message carrying the whole pricing string. -/
def checkPricingToks (pricing : String) : List String → Option ItemErr
  | [] => none
  | t :: rest =>
      if pricingTokOk t then checkPricingToks pricing rest
      else some (ItemErr.pricingInvalid pricing)

/-- The pricing validation loop of ItemDefinition construction. -/
def checkPricing (pricing : String) : Option ItemErr :=
  checkPricingToks pricing (splitComma pricing)

/-! Python 2 float parsing, for the vat number part check. -/

/-- Python whitespace stripped by float parsing. -/
def isPyWs (c : Char) : Bool :=
  c = ' ' || c = '\t' || c = '\n' || c = '\r' || c = Char.ofNat 11 || c = Char.ofNat 12

/-- Drop leading whitespace. -/
def dropWsL : List Char → List Char
  | [] => []
  | c :: rest => if isPyWs c then dropWsL rest else c :: rest

/-- Only whitespace remains. -/
def allWs (l : List Char) : Bool := l.all isPyWs

/-- Count and drop leading ASCII digits. -/
def spanDigits : List Char → Nat × List Char
  | [] => (0, [])
  | c :: rest =>
      if isDigitCh c then
        let (n, r) := spanDigits rest
        (n + 1, r)
      else (0, c :: rest)

/-- Drop one leading sign character. -/
def dropSign : List Char → List Char
  | '+' :: r => r
  | '-' :: r => r
  | l => l

/-- Character list prefix test. -/
def leadsWith : List Char → List Char → Bool
  | [], _ => true
  | _ :: _, [] => false
  | a :: as, b :: bs => a = b && leadsWith as bs

/-- At least one digit followed by only whitespace, for a float exponent. -/
def expDigits (l : List Char) : Bool :=
  let (n, r) := spanDigits l
  Nat.ble 1 n && allWs r

/-- What may follow a float mantissa: an exponent part or trailing
whitespace. -/
def expTail (l : List Char) : Bool :=
  match l with
  | 'e' :: r => expDigits (dropSign r)
  | 'E' :: r => expDigits (dropSign r)
  | r => allWs r

/-- Embedding of the Python 2 float builtin applied to a string: leading
and trailing whitespace, an optional sign, a decimal mantissa with at
least one digit and optional exponent, or the inf, infinity and nan words
in any case. True when float(s) succeeds. -/
def floatParses (s : String) : Bool :=
  let l := dropSign (dropWsL s.toList)
  let low := l.map toLowerAscii
  if leadsWith ['i', 'n', 'f', 'i', 'n', 'i', 't', 'y'] low then allWs (low.drop 8)
  else if leadsWith ['i', 'n', 'f'] low then allWs (low.drop 3)
  else if leadsWith ['n', 'a', 'n'] low then allWs (low.drop 3)
  else
    let (n1, r1) := spanDigits l
    match r1 with
    | '.' :: r2 =>
        let (n2, r3) := spanDigits r2
        Nat.ble 1 (n1 + n2) && expTail r3
    | _ => Nat.ble 1 n1 && expTail r1

/-- The first two characters of a vat token are uppercase ASCII letters. -/
def upper2chk (v : String) : Bool :=
  (v.toList.take 2).all isUpperAscii

/-- The remainder of a vat token after its two country letters. -/
def drop2 (v : String) : String :=
  String.mk (v.toList.drop 2)

/-- Validation of one vat token, in source order: length at least two,
then two uppercase country letters, then a remainder float parses. -/
def vatTokErr (vat v : String) : Option ItemErr :=
  if v.length < 2 then some (ItemErr.vatLength v)
  else if !(upper2chk v) then some (ItemErr.vatCountry vat)
  else if !(floatParses (drop2 v)) then some (ItemErr.vatNumber vat)
  else none

/-- A vat token passes all three checks. -/
def vatTokOk (v : String) : Bool :=
  Nat.ble 2 v.length && upper2chk v && floatParses (drop2 v)

/-- Scan the vat tokens, failing on the first bad one. -/
def checkVatToks (vat : String) : List String → Option ItemErr
  | [] => none
  | v :: rest =>
      match vatTokErr vat v with
      | some e => some e
      | none => checkVatToks vat rest

/-- The vat validation loop of ItemDefinition construction. -/
def checkVat (vat : String) : Option ItemErr :=
  checkVatToks vat (splitComma vat)

/-- ItemDefinition construction: validate pricing then vat, then build the
data parameter map. The purchasedatetime integer check of the source is
enforced by the Option Int type here; now stands for the construction time
default. -/
def ItemDefinition.init (item_id pricing vat url title : String)
    (purchasedatetime : Option Int) (cp : Option String) (now : Int) :
    Except ItemErr ParamMap :=
  match checkPricing pricing with
  | some e => Except.error e
  | none =>
      match checkVat vat with
      | some e => Except.error e
      | none =>
          Except.ok
            [("article_id", Value.str item_id),
             ("purchasedatetime", Value.int (purchasedatetime.getD now)),
             ("pricing", Value.str pricing), ("vat", Value.str vat),
             ("url", Value.str url), ("title", Value.str title),
             ("cp", optVal cp)]

/-! ### The buy and add builders, over an explicit object store

The source copies the item definition data dict (copy.copy) and then
mutates the copy. To make that frame property meaningful, dicts live in an
explicit store of parameter maps indexed by allocation order, so an alias
bug would be observable. -/

/-- A store of parameter map objects; a reference is an index. -/
structure Store where
  maps : List ParamMap
deriving DecidableEq

/-- Read the map an index refers to. -/
def storeRead (st : Store) (r : Nat) : ParamMap :=
  st.maps.getD r []

/-- Python dict assignment on the object at an index. -/
def storeWrite (st : Store) (r : Nat) (k : String) (v : Value) : Store :=
  Store.mk (st.maps.set r (setk (storeRead st r) k v))

/-- The only failure of the buy and add builders: the APIException for a
transaction reference that is not unique enough. -/
inductive APIErr where
  | apiException
deriving DecidableEq

/-- The signed inner web URL of the buy and add flows: dialog or direct
prefix, optional product key segment, page type, then the signed query. -/
def web_url_core (c : Client) (data : ParamMap) (page_type : String)
    (product_key : Option String) (dialog : Bool) (ts : Nat) : String :=
  let pre := if dialog then c.web_root ++ "/dialog" else c.web_root
  let base :=
    match product_key with
    | some pk => pre ++ "/" ++ pk ++ "/" ++ page_type
    | none => pre ++ "/" ++ page_type
  base ++ "?" ++ sign_and_encode c.shared_secret data base "GET" ts

/-- The tail of get_web_url after the transaction reference block: the
optional skip_add_to_invoice flag, then sign and wrap in the dialog-api
indirection. -/
def web_url_finish (c : Client) (st : Store) (dataRef : Nat) (page_type : String)
    (product_key : Option String) (dialog skip_add_to_invoice : Bool) (ts : Nat) :
    Except APIErr String × Store :=
  let st5 := if skip_add_to_invoice then storeWrite st dataRef "skip_add_to_invoice" (Value.int 1)
    else st
  (Except.ok (get_dialog_api_url c
      (web_url_core c (storeRead st5 dataRef) page_type product_key dialog ts)), st5)

/-- The get_web_url method: copy the item definition data into a fresh
object, add the optional flags to the copy, reject a truthy transaction
reference shorter than six characters with the APIException, then sign and
wrap. The store after the call is returned even on failure, mirroring the
mutations done before the Python exception propagates. -/
def get_web_url (c : Client) (st : Store) (itemRef : Nat) (page_type : String)
    (product_key : Option String) (dialog use_jsevents skip_add_to_invoice : Bool)
    (transaction_reference : Option String) (consumable : Bool)
    (expires_at : Option Int) (ts : Nat) : Except APIErr String × Store :=
  let dataRef := st.maps.length
  let st1 := Store.mk (st.maps ++ [storeRead st itemRef])
  let st2 := if use_jsevents then storeWrite st1 dataRef "jsevents" (Value.int 1) else st1
  let st3 := if consumable then storeWrite st2 dataRef "consumable" (Value.int 1) else st2
  let st4 :=
    match expires_at with
    | some e => storeWrite st3 dataRef "expires_at" (Value.int e)
    | none => st3
  match transaction_reference with
  | some t =>
      if t = "" then
        web_url_finish c st4 dataRef page_type product_key dialog skip_add_to_invoice ts
      else if t.length < 6 then (Except.error APIErr.apiException, st4)
      else
        web_url_finish c (storeWrite st4 dataRef "tref" (Value.str t)) dataRef
          page_type product_key dialog skip_add_to_invoice ts
  | none => web_url_finish c st4 dataRef page_type product_key dialog skip_add_to_invoice ts

/-- get_buy_url delegates to get_web_url with the buy page type. -/
def get_buy_url (c : Client) (st : Store) (itemRef : Nat)
    (product_key : Option String) (dialog use_jsevents skip_add_to_invoice : Bool)
    (transaction_reference : Option String) (consumable : Bool)
    (expires_at : Option Int) (ts : Nat) : Except APIErr String × Store :=
  get_web_url c st itemRef "buy" product_key dialog use_jsevents skip_add_to_invoice
    transaction_reference consumable expires_at ts

/-- get_add_url delegates to get_web_url with the add page type. -/
def get_add_url (c : Client) (st : Store) (itemRef : Nat)
    (product_key : Option String) (dialog use_jsevents skip_add_to_invoice : Bool)
    (transaction_reference : Option String) (consumable : Bool)
    (expires_at : Option Int) (ts : Nat) : Except APIErr String × Store :=
  get_web_url c st itemRef "add" product_key dialog use_jsevents skip_add_to_invoice
    transaction_reference consumable expires_at ts

/-! ### Substring occurrence -/

/-- Substring occurrence test on character lists. -/
def occursIn (p : List Char) : List Char → Bool
  | [] => leadsWith p []
  | c :: rest => leadsWith p (c :: rest) || occursIn p rest

/-- Substring occurrence test on strings: the pattern occurs in s. -/
def occursInStr (pat s : String) : Bool :=
  occursIn pat.data s.data

/-- Example client instance used by concrete witnesses. -/
def cEx : Client := Client.mk "cp" "sec" "https://api" "https://web" none

/-- Example store holding one item definition data map at index zero. -/
def stEx : Store := Store.mk [[("article_id", Value.str "a")]]

/-- The message taxonomy the vat claim asserts: the construction error
indicates that the country part or the numeric part failed. Written from
the claim wording, for comparison with the source messages. -/
def indicatesCountryOrNumber : ItemErr → Bool
  | ItemErr.vatCountry _ => true
  | ItemErr.vatNumber _ => true
  | _ => false

theorem strData_append (s t : String) : (s ++ t).data = s.data ++ t.data := by
  cases s
  cases t
  rfl

theorem leadsWith_nil (s : List Char) : leadsWith [] s = true := by
  cases s <;> rfl

theorem eq_nil_of_leadsWith_nil {p : List Char} (h : leadsWith p [] = true) : p = [] := by
  cases p with
  | nil => rfl
  | cons a as => simp [leadsWith] at h

theorem leadsWith_append_self (p t : List Char) : leadsWith p (p ++ t) = true := by
  induction p with
  | nil => exact leadsWith_nil t
  | cons a as ih => simp [leadsWith, ih]

theorem leadsWith_append_of {p s : List Char} (t : List Char) (h : leadsWith p s = true) :
    leadsWith p (s ++ t) = true := by
  induction p generalizing s with
  | nil => exact leadsWith_nil _
  | cons a as ih =>
      cases s with
      | nil => simp [leadsWith] at h
      | cons b bs =>
          simp only [leadsWith, Bool.and_eq_true] at h
          simp only [List.cons_append, leadsWith, Bool.and_eq_true]
          exact ⟨h.1, ih h.2⟩

theorem occursIn_nil_pat (s : List Char) : occursIn [] s = true := by
  induction s with
  | nil => rfl
  | cons c cs ih => simp [occursIn, leadsWith_nil]

theorem occursIn_of_leadsWith {p s : List Char} (h : leadsWith p s = true) :
    occursIn p s = true := by
  cases s with
  | nil => exact h
  | cons c cs => simp [occursIn, h]

theorem occursIn_append_left {p s : List Char} (t : List Char) (h : occursIn p s = true) :
    occursIn p (s ++ t) = true := by
  induction s with
  | nil =>
      have hp := eq_nil_of_leadsWith_nil h
      subst hp
      exact occursIn_nil_pat t
  | cons c cs ih =>
      simp only [occursIn, Bool.or_eq_true] at h
      simp only [List.cons_append, occursIn, Bool.or_eq_true]
      cases h with
      | inl h1 => exact Or.inl (by simpa using leadsWith_append_of t h1)
      | inr h2 => exact Or.inr (ih h2)

theorem occursIn_append_right {p t : List Char} (s : List Char) (h : occursIn p t = true) :
    occursIn p (s ++ t) = true := by
  induction s with
  | nil => simpa using h
  | cons c cs ih => simp only [List.cons_append, occursIn, Bool.or_eq_true]; exact Or.inr ih

theorem occursInStr_append_right {pat t : String} (s : String) (h : occursInStr pat t = true) :
    occursInStr pat (s ++ t) = true := by
  unfold occursInStr at *
  rw [strData_append]
  exact occursIn_append_right s.data h

/-! ### The signature parameter occurs in every signed query string -/

theorem mem_insertSorted (p q : String × String) (l : List (String × String))
    (h : q = p ∨ q ∈ l) : q ∈ insertSorted p l := by
  induction l with
  | nil =>
      simp only [List.mem_singleton, insertSorted]
      simpa using h
  | cons r rs ih =>
      simp only [insertSorted]
      split
      · rcases h with h | h
        · simp [h]
        · simp [List.mem_cons] at h ⊢
          tauto
      · rcases h with h | h
        · exact List.mem_cons_of_mem r (ih (Or.inl h))
        · rcases List.mem_cons.mp h with h | h
          · simp [h]
          · exact List.mem_cons_of_mem r (ih (Or.inr h))

theorem mem_sortPairs {q : String × String} {l : List (String × String)} (h : q ∈ l) :
    q ∈ sortPairs l := by
  induction l with
  | nil => simp at h
  | cons a as ih =>
      rcases List.mem_cons.mp h with h | h
      · exact mem_insertSorted a q (sortPairs as) (Or.inl h)
      · exact mem_insertSorted a q (sortPairs as) (Or.inr (ih h))

theorem occursIn_joinAmpAux {p : List Char} {x : String} {xs : List String}
    (h : x ∈ xs) (hx : occursIn p x.data = true) :
    occursIn p (joinAmpAux xs).data = true := by
  induction xs with
  | nil => simp at h
  | cons y ys ih =>
      have hdata : (joinAmpAux (y :: ys)).data =
          ("&".data ++ y.data) ++ (joinAmpAux ys).data := by
        show (("&" ++ y) ++ joinAmpAux ys).data = _
        rw [strData_append, strData_append]
      rcases List.mem_cons.mp h with h | h
      · subst h
        rw [hdata]
        exact occursIn_append_left _ (occursIn_append_right _ hx)
      · rw [hdata]
        exact occursIn_append_right _ (ih h)

theorem occursIn_joinAmp {p : List Char} {x : String} {xs : List String}
    (h : x ∈ xs) (hx : occursIn p x.data = true) :
    occursIn p (joinAmp xs).data = true := by
  cases xs with
  | nil => simp at h
  | cons y ys =>
      have hdata : (joinAmp (y :: ys)).data = y.data ++ (joinAmpAux ys).data := by
        show (y ++ joinAmpAux ys).data = _
        rw [strData_append]
      rcases List.mem_cons.mp h with h | h
      · subst h
        rw [hdata]
        exact occursIn_append_left _ hx
      · rw [hdata]
        exact occursIn_append_right _ (occursIn_joinAmpAux h hx)

theorem renderPair_hmac_leads (v : String) :
    leadsWith "hmac=".data (renderPair ("hmac", v)).data = true := by
  have h1 : (renderPair ("hmac", v)).data = "hmac=".data ++ (encStrict v).data := by
    show ((encStrict "hmac" ++ "=") ++ encStrict v).data = _
    rw [strData_append, strData_append]
    have h2 : (encStrict "hmac").data ++ "=".data = "hmac=".data := by decide
    rw [← h2]
  rw [h1]
  exact leadsWith_append_self _ _

theorem joinAmp_render_hmac (l : List (String × String)) (d : String)
    (h : ("hmac", d) ∈ l) :
    occursIn "hmac=".data (joinAmp ((sortPairs l).map renderPair)).data = true := by
  have hmem : renderPair ("hmac", d) ∈ (sortPairs l).map renderPair :=
    List.mem_map_of_mem renderPair (mem_sortPairs h)
  exact occursIn_joinAmp hmem (occursIn_of_leadsWith (renderPair_hmac_leads d))

theorem sign_contains_hmac (secret : String) (params : ParamMap) (url method : String)
    (ts : Nat) : occursInStr "hmac=" (sign_and_encode secret params url method ts) = true := by
  unfold occursInStr sign_and_encode
  exact joinAmp_render_hmac _ _ (List.mem_append_right _ (List.mem_singleton.mpr rfl))

theorem occursInStr_sign_suffix (base secret : String) (params : ParamMap)
    (url method : String) (ts : Nat) :
    occursInStr "hmac=" (base ++ "?" ++ sign_and_encode secret params url method ts) = true :=
  occursInStr_append_right (base ++ "?") (sign_contains_hmac secret params url method ts)

/-! ### Store and dict lemmas -/

theorem getD_set_self (l : List ParamMap) (i : Nat) (a : ParamMap)
    (h : i < l.length) : (l.set i a).getD i [] = a := by
  induction l generalizing i with
  | nil => simp at h
  | cons x xs ih =>
      cases i with
      | zero => rfl
      | succ j =>
          simp only [List.set, List.getD, List.getElem?_cons_succ]
          exact ih j (by simpa using h)

theorem getD_set_ne (l : List ParamMap) (i j : Nat) (a : ParamMap)
    (h : i ≠ j) : (l.set i a).getD j [] = l.getD j [] := by
  induction l generalizing i j with
  | nil => rfl
  | cons x xs ih =>
      cases i with
      | zero =>
          cases j with
          | zero => exact absurd rfl h
          | succ k => rfl
      | succ i2 =>
          cases j with
          | zero => rfl
          | succ k =>
              simp only [List.set, List.getD, List.getElem?_cons_succ]
              exact ih i2 k (by omega)

theorem getD_append_lt (l l2 : List ParamMap) (i : Nat) (h : i < l.length) :
    (l ++ l2).getD i [] = l.getD i [] := by
  induction l generalizing i with
  | nil => simp at h
  | cons x xs ih =>
      cases i with
      | zero => rfl
      | succ j =>
          simp only [List.cons_append, List.getD, List.getElem?_cons_succ]
          exact ih j (by simpa using h)

theorem storeWrite_length (st : Store) (r : Nat) (k : String) (v : Value) :
    (storeWrite st r k v).maps.length = st.maps.length := by
  simp [storeWrite]

theorem storeRead_write_ne (st : Store) (r r2 : Nat) (k : String) (v : Value)
    (h : r ≠ r2) : storeRead (storeWrite st r k v) r2 = storeRead st r2 :=
  getD_set_ne st.maps r r2 _ h

theorem storeRead_write_self (st : Store) (r : Nat) (k : String) (v : Value)
    (h : r < st.maps.length) :
    storeRead (storeWrite st r k v) r = setk (storeRead st r) k v :=
  getD_set_self st.maps r _ h

theorem storeRead_alloc_lt (st : Store) (m : ParamMap) (i : Nat)
    (h : i < st.maps.length) :
    storeRead (Store.mk (st.maps ++ [m])) i = storeRead st i :=
  getD_append_lt st.maps [m] i h

theorem getk_setk_self (m : ParamMap) (k : String) (v : Value) :
    getk (setk m k v) k = some v := by
  induction m with
  | nil => simp [setk, getk]
  | cons p rest ih =>
      obtain ⟨k1, v1⟩ := p
      by_cases h : k1 = k
      · simp [setk, getk, h]
      · simp [setk, getk, h, ih]

theorem getk_setk_ne (m : ParamMap) (k k2 : String) (v : Value) (h : k ≠ k2) :
    getk (setk m k v) k2 = getk m k2 := by
  induction m with
  | nil => simp [setk, getk, h]
  | cons p rest ih =>
      obtain ⟨k1, v1⟩ := p
      by_cases h2 : k1 = k
      · subst h2
        simp [setk, getk, h]
      · by_cases h3 : k1 = k2
        · simp [setk, getk, h2, h3, Ne.symm h]
        · simp [setk, getk, h2, h3, ih]

/-! ### Validation lemmas -/

theorem checkPricingToks_none_iff (p : String) (l : List String) :
    checkPricingToks p l = none ↔ l.all pricingTokOk = true := by
  induction l with
  | nil => simp [checkPricingToks]
  | cons t rest ih =>
      by_cases h : pricingTokOk t = true
      · simp [checkPricingToks, h, ih]
      · simp [checkPricingToks, h]

theorem checkPricingToks_some_eq (p : String) (l : List String) (e : ItemErr)
    (h : checkPricingToks p l = some e) : e = ItemErr.pricingInvalid p := by
  induction l with
  | nil => simp [checkPricingToks] at h
  | cons t rest ih =>
      by_cases h2 : pricingTokOk t = true
      · exact ih (by simpa [checkPricingToks, h2] using h)
      · simp [checkPricingToks, h2] at h
        exact h.symm

theorem vatTokErr_none_iff (vat v : String) :
    vatTokErr vat v = none ↔ vatTokOk v = true := by
  unfold vatTokErr vatTokOk
  by_cases h1 : v.length < 2
  · have hble : Nat.ble 2 v.length = false := by
      rw [Bool.eq_false_iff]
      intro hc
      exact absurd (Nat.le_of_ble_eq_true hc) (by omega)
    simp [h1, hble]
  · have hble : Nat.ble 2 v.length = true := Nat.ble_eq_true_of_le (by omega)
    by_cases h2 : upper2chk v = true
    · by_cases h3 : floatParses (drop2 v) = true
      · simp [h1, h2, h3, hble]
      · simp at h3
        simp [h1, h2, h3, hble]
    · simp at h2
      simp [h1, h2, hble]

theorem vatTokErr_some_cases (vat v : String) (e : ItemErr)
    (h : vatTokErr vat v = some e) :
    (v.length < 2 ∧ e = ItemErr.vatLength v) ∨
    (2 ≤ v.length ∧ upper2chk v = false ∧ e = ItemErr.vatCountry vat) ∨
    (2 ≤ v.length ∧ upper2chk v = true ∧ floatParses (drop2 v) = false ∧
      e = ItemErr.vatNumber vat) := by
  unfold vatTokErr at h
  by_cases h1 : v.length < 2
  · simp [h1] at h
    exact Or.inl ⟨h1, h.symm⟩
  · by_cases h2 : upper2chk v = true
    · by_cases h3 : floatParses (drop2 v) = true
      · simp [h1, h2, h3] at h
      · simp at h3
        simp [h1, h2, h3] at h
        exact Or.inr (Or.inr ⟨by omega, h2, h3, h.symm⟩)
    · simp at h2
      simp [h1, h2] at h
      exact Or.inr (Or.inl ⟨by omega, h2, h.symm⟩)

theorem checkVatToks_none_iff (vat : String) (l : List String) :
    checkVatToks vat l = none ↔ l.all vatTokOk = true := by
  induction l with
  | nil => simp [checkVatToks]
  | cons v rest ih =>
      cases he : vatTokErr vat v with
      | some e =>
          have hv : ¬ (vatTokOk v = true) := by
            intro hc
            rw [(vatTokErr_none_iff vat v).mpr hc] at he
            exact Option.noConfusion he
          simp [checkVatToks, he]
          simp at hv
          simp [hv]
      | none =>
          have hv : vatTokOk v = true := (vatTokErr_none_iff vat v).mp he
          simp [checkVatToks, he, hv, ih]

theorem checkVatToks_some_mem (vat : String) (l : List String) (e : ItemErr)
    (h : checkVatToks vat l = some e) : ∃ v, v ∈ l ∧ vatTokErr vat v = some e := by
  induction l with
  | nil => simp [checkVatToks] at h
  | cons v rest ih =>
      cases he : vatTokErr vat v with
      | some e2 =>
          simp [checkVatToks, he] at h
          exact ⟨v, List.mem_cons_self v rest, by rw [he, h]⟩
      | none =>
          have h2 := ih (by simpa [checkVatToks, he] using h)
          obtain ⟨w, hw, hwe⟩ := h2
          exact ⟨w, List.mem_cons_of_mem v hw, hwe⟩

theorem checkVat_some_shape (vat : String) (e : ItemErr) (h : checkVat vat = some e) :
    (∃ v, e = ItemErr.vatLength v) ∨ e = ItemErr.vatCountry vat ∨
      e = ItemErr.vatNumber vat := by
  obtain ⟨v, _, hve⟩ := checkVatToks_some_mem vat _ e h
  rcases vatTokErr_some_cases vat v e hve with ⟨_, he⟩ | ⟨_, _, he⟩ | ⟨_, _, _, he⟩
  · exact Or.inl ⟨v, he⟩
  · exact Or.inr (Or.inl he)
  · exact Or.inr (Or.inr he)

/-! ### Frame lemmas for the buy and add builders -/

theorem finish_frame (c : Client) (st : Store) (dataRef : Nat) (page_type : String)
    (pk : Option String) (dialog skip : Bool) (ts : Nat) (i : Nat) (h : dataRef ≠ i) :
    storeRead ((web_url_finish c st dataRef page_type pk dialog skip ts).2) i =
      storeRead st i := by
  unfold web_url_finish
  cases skip
  · rfl
  · simpa using storeRead_write_ne st dataRef i _ _ h

theorem gwu_frame (c : Client) (st : Store) (itemRef : Nat) (page_type : String)
    (pk : Option String) (dialog js skip : Bool) (tref : Option String)
    (cons : Bool) (ex : Option Int) (ts : Nat) (h : itemRef < st.maps.length) :
    storeRead ((get_web_url c st itemRef page_type pk dialog js skip tref cons ex ts).2)
      itemRef = storeRead st itemRef := by
  have hne : st.maps.length ≠ itemRef := by omega
  unfold get_web_url
  cases js <;> cases cons <;> cases ex <;> cases tref <;>
    simp only [] <;>
    first
      | (rw [finish_frame _ _ _ _ _ _ _ _ _ hne]
         simp [storeRead_write_ne _ _ _ _ _ hne, storeRead_alloc_lt st _ itemRef h])
      | (rename_i t
         by_cases h0 : t = "" <;>
           by_cases h6 : t.length < 6 <;>
             simp only [h0, h6, if_true, if_false, if_pos, if_neg, not_false_iff] <;>
             first
               | (rw [finish_frame _ _ _ _ _ _ _ _ _ hne]
                  simp [storeRead_write_ne _ _ _ _ _ hne, storeRead_alloc_lt st _ itemRef h])
               | simp [storeRead_write_ne _ _ _ _ _ hne, storeRead_alloc_lt st _ itemRef h])

theorem finish_tref (c : Client) (st : Store) (dataRef : Nat) (page_type : String)
    (pk : Option String) (dialog skip : Bool) (ts : Nat) (t : String)
    (hlen : dataRef < st.maps.length)
    (hv : getk (storeRead st dataRef) "tref" = some (Value.str t)) :
    getk (storeRead ((web_url_finish c st dataRef page_type pk dialog skip ts).2) dataRef)
      "tref" = some (Value.str t) := by
  unfold web_url_finish
  cases skip
  · simpa using hv
  · have h2 := storeRead_write_self st dataRef "skip_add_to_invoice" (Value.int 1) hlen
    simp only [if_true]
    rw [h2, getk_setk_ne _ _ _ _ (by decide)]
    exact hv

theorem tref_block_ok (c : Client) (st4 : Store) (dataRef : Nat) (page_type : String)
    (pk : Option String) (dialog skip : Bool) (ts : Nat) (t : String)
    (hlen : dataRef < st4.maps.length) :
    Except.isOk (web_url_finish c (storeWrite st4 dataRef "tref" (Value.str t)) dataRef
        page_type pk dialog skip ts).1 = true ∧
    getk (storeRead ((web_url_finish c (storeWrite st4 dataRef "tref" (Value.str t)) dataRef
        page_type pk dialog skip ts).2) dataRef) "tref" = some (Value.str t) := by
  constructor
  · unfold web_url_finish
    cases skip <;> rfl
  · apply finish_tref
    · rw [storeWrite_length]
      exact hlen
    · rw [storeRead_write_self _ _ _ _ hlen]
      exact getk_setk_self _ _ _

theorem gwu_tref_short (c : Client) (st : Store) (itemRef : Nat) (page_type : String)
    (pk : Option String) (dialog js skip cons : Bool) (ex : Option Int) (ts : Nat)
    (t : String) (h0 : t ≠ "") (h6 : t.length < 6) :
    (get_web_url c st itemRef page_type pk dialog js skip (some t) cons ex ts).1 =
      Except.error APIErr.apiException := by
  unfold get_web_url
  cases js <;> cases cons <;> cases ex <;> simp [h0, h6]

theorem gwu_tref_long (c : Client) (st : Store) (itemRef : Nat) (page_type : String)
    (pk : Option String) (dialog js skip cons : Bool) (ex : Option Int) (ts : Nat)
    (t : String) (h : 6 ≤ t.length) :
    Except.isOk (get_web_url c st itemRef page_type pk dialog js skip (some t) cons ex ts).1
      = true ∧
    getk (storeRead ((get_web_url c st itemRef page_type pk dialog js skip (some t) cons
        ex ts).2) st.maps.length) "tref" = some (Value.str t) := by
  have h0 : ¬ (t = "") := by
    intro he
    subst he
    exact absurd h (by decide)
  have h6 : ¬ (t.length < 6) := by omega
  unfold get_web_url
  cases js <;> cases cons <;> cases ex <;>
    simp only [h0, h6, if_neg, if_false, ite_false, not_false_iff] <;>
    exact tref_block_ok _ _ _ _ _ _ _ _ _
      (by simp [storeWrite_length, List.length_append])

theorem gwu_tref_empty (c : Client) (st : Store) (itemRef : Nat) (page_type : String)
    (pk : Option String) (dialog js skip cons : Bool) (ex : Option Int) (ts : Nat) :
    get_web_url c st itemRef page_type pk dialog js skip (some "") cons ex ts =
      get_web_url c st itemRef page_type pk dialog js skip none cons ex ts := by
  unfold get_web_url
  simp

/-! ### The claims -/

/-- Claim C1: after make_request processes a parsed response r, a
status of invalid_token leaves the stored lptoken absent regardless of the
prior value, even when r also carries new_token; and when r carries a
new_token field and the status is not invalid_token, the stored lptoken
equals that new token. The invalid_token clause takes precedence in
the overlap, as the claim states in its parenthetical. -/
theorem claim_C1_token_lifecycle :
    ∀ (c : Client) (u : String) (p : ParamMap) (m : String) (r : Response),
    (r.status = some "invalid_token" →
      ((make_request c u p m (TransportResult.ok r)).2).lptoken = none) ∧
    (∀ t, r.new_token = some t → r.status ≠ some "invalid_token" →
      ((make_request c u p m (TransportResult.ok r)).2).lptoken = some t) := by
  intro c u p m r
  constructor
  · intro h
    cases hn : r.new_token <;> simp [make_request, hn, h, setToken]
  · intro t ht hs
    simp [make_request, ht, hs, setToken]

/-- Witness for claim C1 at concrete inputs: a response with status
invalid_token and a new token clears the stored token, and a response with
status ok and a new token installs it. -/
theorem claim_C1_witness :
    ((make_request (Client.mk "cp" "sec" "a" "w" (some "old")) "u" [] "GET"
      (TransportResult.ok (Response.mk (some "invalid_token") (some "t") none none
        none))).2).lptoken = none ∧
    ((make_request (Client.mk "cp" "sec" "a" "w" (some "old")) "u" [] "GET"
      (TransportResult.ok (Response.mk (some "ok") (some "t2") none none
        none))).2).lptoken = some "t2" :=
  ⟨(claim_C1_token_lifecycle (Client.mk "cp" "sec" "a" "w" (some "old")) "u" [] "GET"
      (Response.mk (some "invalid_token") (some "t") none none none)).1 rfl,
   (claim_C1_token_lifecycle (Client.mk "cp" "sec" "a" "w" (some "old")) "u" [] "GET"
      (Response.mk (some "ok") (some "t2") none none none)).2 "t2" rfl (by decide)⟩

/-- Claim C3: get_access raises the generic error carrying the status if
and only if the status is outside the allow list of ok, invalid_token and
connection_error, and otherwise returns the response map unchanged. -/
theorem claim_C3_get_access_allowlist :
    ∀ (c : Client) (ids : ArticleIds) (pk : Option String) (r : Response) (s : String),
    r.status = some s →
    (((get_access c ids pk (TransportResult.ok r)).1 =
        Except.error (AccessErr.generic s)) ↔
      ¬ (s = "ok" ∨ s = "invalid_token" ∨ s = "connection_error")) ∧
    ((s = "ok" ∨ s = "invalid_token" ∨ s = "connection_error") →
      (get_access c ids pk (TransportResult.ok r)).1 = Except.ok r) := by
  intro c ids pk r s hs
  by_cases hall : s = "ok" ∨ s = "invalid_token" ∨ s = "connection_error"
  · constructor
    · simp [get_access, make_request, hs, hall]
    · intro _
      simp [get_access, make_request, hs, hall]
  · constructor
    · simp [get_access, make_request, hs, hall]
    · intro hc
      exact absurd hc hall

/-- Witness for claim C3: the two scenarios of the spec. An ok response
with one granted article is returned unchanged, and a teapot status raises
the generic error carrying teapot. -/
theorem claim_C3_witness :
    (get_access cEx (ArticleIds.many ["abc123"]) none
      (TransportResult.ok (Response.mk (some "ok") none (some [("abc123", true)]) none
        none))).1 =
      Except.ok (Response.mk (some "ok") none (some [("abc123", true)]) none none) ∧
    (get_access cEx (ArticleIds.many ["x"]) none
      (TransportResult.ok (Response.mk (some "teapot") none none none none))).1 =
      Except.error (AccessErr.generic "teapot") :=
  ⟨(claim_C3_get_access_allowlist cEx (ArticleIds.many ["abc123"]) none
      (Response.mk (some "ok") none (some [("abc123", true)]) none none) "ok" rfl).2
      (Or.inl rfl),
   ((claim_C3_get_access_allowlist cEx (ArticleIds.many ["x"]) none
      (Response.mk (some "teapot") none none none none) "teapot" rfl).1).mpr (by decide)⟩

/-- Claim C4: get_metered_access normalizes a single id into a one element
collection, raises the typed invalid token error on an invalid_token
status, raises the generic error on any other status than ok, and on ok
returns the triple of the granted articles, the exceeded field defaulting
to false, and the subs field defaulting to the empty list. -/
theorem claim_C4_get_metered_access :
    ∀ (c : Client) (x : String) (ids : ArticleIds) (threshold : Int)
      (pk : Option String) (tr : TransportResult) (r : Response),
    (get_metered_access c (ArticleIds.single x) threshold pk tr =
      get_metered_access c (ArticleIds.many [x]) threshold pk tr) ∧
    (r.status = some "invalid_token" →
      (get_metered_access c ids threshold pk (TransportResult.ok r)).1 =
        Except.error MeteredErr.invalidToken) ∧
    (∀ s, r.status = some s → s ≠ "invalid_token" → s ≠ "ok" →
      (get_metered_access c ids threshold pk (TransportResult.ok r)).1 =
        Except.error MeteredErr.generic) ∧
    (∀ a, r.status = some "ok" → r.articles = some a →
      (get_metered_access c ids threshold pk (TransportResult.ok r)).1 =
        Except.ok (a, r.exceeded.getD false, r.subs.getD [])) := by
  intro c x ids threshold pk tr r
  refine ⟨rfl, ?_, ?_, ?_⟩
  · intro h
    simp [get_metered_access, make_request, h]
  · intro s hs h1 h2
    simp [get_metered_access, make_request, hs, h1, h2]
  · intro a hok ha
    simp [get_metered_access, make_request, hok, ha]

/-- Witness for claim C4: the scenario of the spec, a single id with an
ok response granting one article with the exceeded flag set and an empty
subs list. -/
theorem claim_C4_witness :
    (get_metered_access cEx (ArticleIds.single "a1") 3 none
      (TransportResult.ok (Response.mk (some "ok") none (some [("a1", false)])
        (some true) (some [])))).1 =
      Except.ok ([("a1", false)], true, ([] : List String)) :=
  (claim_C4_get_metered_access cEx "a1" (ArticleIds.single "a1") 3 none
      (TransportResult.ok (Response.mk (some "ok") none (some [("a1", false)])
        (some true) (some [])))
      (Response.mk (some "ok") none (some [("a1", false)]) (some true)
        (some []))).2.2.2 [("a1", false)] rfl rfl

/-- Claim C5 as amended: a transport URL error yields the synthetic map
with status connection_error, any other transport exception yields the
synthetic map with status unexpected error written with a space, and a
successful call returns the decoded body unchanged. -/
theorem claim_C5_transport_errors :
    ∀ (c : Client) (u : String) (p : ParamMap) (m : String),
    (make_request c u p m TransportResult.urlError).1 =
      Response.mk (some "connection_error") none none none none ∧
    (make_request c u p m TransportResult.otherError).1 =
      Response.mk (some "unexpected error") none none none none ∧
    ∀ r, (make_request c u p m (TransportResult.ok r)).1 = r :=
  fun _ _ _ _ => ⟨rfl, rfl, fun _ => rfl⟩

/-- Counterexample for claim C5 as frozen: the synthetic status of the
other exception branch is the two words unexpected error with a space, not
the claimed single token with an underscore. -/
theorem claim_C5_counterexample :
    (make_request cEx "u" [] "GET" TransportResult.otherError).1.status =
      some "unexpected error" ∧
    ¬ ((make_request cEx "u" [] "GET" TransportResult.otherError).1.status =
      some "unexpected_error") := by
  constructor
  · rfl
  · decide

/-- Claim C10: get_access behaves identically on a single non list id and
on the one element collection of it, and the normalized ids feed the
assembled request parameters. -/
theorem claim_C10_get_access_normalizes :
    ∀ (c : Client) (x : String) (pk : Option String) (tr : TransportResult),
    get_access c (ArticleIds.single x) pk tr =
      get_access c (ArticleIds.many [x]) pk tr ∧
    accessParams c (normalizeIds (ArticleIds.single x)) pk = accessParams c [x] pk :=
  fun _ _ _ _ => ⟨rfl, rfl⟩

/-- Claim C6 as amended: ItemDefinition construction splits pricing on the
comma and rejects exactly the strings some token of which does not start
with three uppercase letters immediately followed by a digit. The source
check is an unanchored prefix match, so trailing characters such as a
decimal part are permitted. -/
theorem claim_C6_pricing_grammar :
    ∀ (item_id pricing vat url title : String) (pd : Option Int) (cp : Option String)
      (now : Int),
    (ItemDefinition.init item_id pricing vat url title pd cp now =
        Except.error (ItemErr.pricingInvalid pricing)) ↔
      (splitComma pricing).all pricingTokOk = false := by
  intro item_id pricing vat url title pd cp now
  constructor
  · intro h
    cases hp : checkPricing pricing with
    | some e =>
        have hne : ¬ ((splitComma pricing).all pricingTokOk = true) := by
          intro hc
          have h0 : checkPricing pricing = none :=
            (checkPricingToks_none_iff pricing _).mpr hc
          rw [h0] at hp
          exact Option.noConfusion hp
        simpa using hne
    | none =>
        exfalso
        unfold ItemDefinition.init at h
        rw [hp] at h
        cases hv : checkVat vat with
        | some e2 =>
            rw [hv] at h
            have he2 : e2 = ItemErr.pricingInvalid pricing := by
              simpa using h
            rcases checkVat_some_shape vat e2 hv with ⟨v, hsh⟩ | hsh | hsh <;>
              rw [hsh] at he2 <;> exact ItemErr.noConfusion he2
        | none =>
            rw [hv] at h
            exact Except.noConfusion h
  · intro hall
    have hp : checkPricing pricing = some (ItemErr.pricingInvalid pricing) := by
      cases hp2 : checkPricing pricing with
      | none =>
          have := (checkPricingToks_none_iff pricing _).mp hp2
          rw [this] at hall
          exact Bool.noConfusion hall
      | some e =>
          rw [checkPricingToks_some_eq pricing _ e hp2]
    unfold ItemDefinition.init
    rw [hp]

/-- Counterexample for claim C6 as frozen: the pricing string EUR2.50 is
accepted by the construction, because the source regex match is anchored
only at the start, while the claim says it is rejected. -/
theorem claim_C6_counterexample :
    ItemDefinition.init "a" "EUR2.50" "DE19" "u" "t" none none 0 =
      Except.ok [("article_id", Value.str "a"), ("purchasedatetime", Value.int 0),
        ("pricing", Value.str "EUR2.50"), ("vat", Value.str "DE19"),
        ("url", Value.str "u"), ("title", Value.str "t"), ("cp", Value.null)] := by
  rfl

/-- Witness for claim C6: the lowercase pricing string eur2 is rejected
with the pricing message, as in the validation boundary scenario. -/
theorem claim_C6_witness :
    ItemDefinition.init "a" "eur2" "DE19" "u" "t" none none 0 =
      Except.error (ItemErr.pricingInvalid "eur2") :=
  (claim_C6_pricing_grammar "a" "eur2" "DE19" "u" "t" none none 0).mpr (by decide)

/-- Claim C8 as amended: the vat string is split on the comma and
rejected exactly when some token is shorter than two characters, has a
non uppercase country prefix, or a remainder that does not float parse;
tokens shorter than two characters are rejected with a distinct length
message, and only longer tokens get the message naming the country or the
numeric part. Construction fails with exactly the first vat error when the
pricing check passes. -/
theorem claim_C8_vat_validation :
    ∀ (vat : String),
    (checkVat vat = none ↔ (splitComma vat).all vatTokOk = true) ∧
    (∀ e, checkVat vat = some e →
      (∃ v, v ∈ splitComma vat ∧ v.length < 2 ∧ e = ItemErr.vatLength v) ∨
      (∃ v, v ∈ splitComma vat ∧ 2 ≤ v.length ∧ upper2chk v = false ∧
        e = ItemErr.vatCountry vat) ∨
      (∃ v, v ∈ splitComma vat ∧ 2 ≤ v.length ∧ upper2chk v = true ∧
        floatParses (drop2 v) = false ∧ e = ItemErr.vatNumber vat)) ∧
    (∀ (item_id pricing url title : String) (pd : Option Int) (cp : Option String)
      (now : Int) (e : ItemErr), checkPricing pricing = none →
      (ItemDefinition.init item_id pricing vat url title pd cp now = Except.error e ↔
        checkVat vat = some e)) := by
  intro vat
  refine ⟨checkVatToks_none_iff vat _, ?_, ?_⟩
  · intro e he
    obtain ⟨v, hv, hve⟩ := checkVatToks_some_mem vat _ e he
    rcases vatTokErr_some_cases vat v e hve with ⟨h1, h2⟩ | ⟨h1, h2, h3⟩ | ⟨h1, h2, h3, h4⟩
    · exact Or.inl ⟨v, hv, h1, h2⟩
    · exact Or.inr (Or.inl ⟨v, hv, h1, h2, h3⟩)
    · exact Or.inr (Or.inr ⟨v, hv, h1, h2, h3, h4⟩)
  · intro item_id pricing url title pd cp now e hp
    unfold ItemDefinition.init
    rw [hp]
    cases hv : checkVat vat with
    | some e2 => simp
    | none => simp

/-- Counterexample for claim C8 as frozen: the one character vat token D
is rejected with the length message, which indicates neither the country
part nor the numeric part, while the claim offers only those two. -/
theorem claim_C8_counterexample :
    ItemDefinition.init "a" "EUR2" "D" "u" "t" none none 0 =
      Except.error (ItemErr.vatLength "D") ∧
    indicatesCountryOrNumber (ItemErr.vatLength "D") = false := by
  constructor
  · rfl
  · rfl

/-- Witness for claim C8: the token DEx fails the numeric part and the
construction reports the number message, as in the validation boundary
scenario. -/
theorem claim_C8_witness :
    ItemDefinition.init "a" "EUR2" "DEx" "u" "t" none none 0 =
      Except.error (ItemErr.vatNumber "DEx") :=
  ((claim_C8_vat_validation "DEx").2.2 "a" "EUR2" "u" "t" none none 0
      (ItemErr.vatNumber "DEx") rfl).mpr rfl

/-- Claim C7 as amended: a truthy transaction reference shorter than six
characters makes get_buy_url and get_add_url fail with the APIException
before any URL is produced; a reference of six or more characters is
stored as the tref parameter of the per call map and the build succeeds;
and the empty reference is falsy in the source, so it is treated exactly
like an absent reference rather than rejected. -/
theorem claim_C7_transaction_reference :
    ∀ (c : Client) (st : Store) (itemRef : Nat) (pk : Option String)
      (dialog js skip cons : Bool) (ex : Option Int) (ts : Nat) (t : String),
    (t ≠ "" → t.length < 6 →
      (get_buy_url c st itemRef pk dialog js skip (some t) cons ex ts).1 =
        Except.error APIErr.apiException ∧
      (get_add_url c st itemRef pk dialog js skip (some t) cons ex ts).1 =
        Except.error APIErr.apiException) ∧
    (6 ≤ t.length →
      Except.isOk (get_buy_url c st itemRef pk dialog js skip (some t) cons ex ts).1
          = true ∧
      getk (storeRead ((get_buy_url c st itemRef pk dialog js skip (some t) cons
          ex ts).2) st.maps.length) "tref" = some (Value.str t) ∧
      Except.isOk (get_add_url c st itemRef pk dialog js skip (some t) cons ex ts).1
          = true ∧
      getk (storeRead ((get_add_url c st itemRef pk dialog js skip (some t) cons
          ex ts).2) st.maps.length) "tref" = some (Value.str t)) ∧
    (get_buy_url c st itemRef pk dialog js skip (some "") cons ex ts =
      get_buy_url c st itemRef pk dialog js skip none cons ex ts ∧
     get_add_url c st itemRef pk dialog js skip (some "") cons ex ts =
      get_add_url c st itemRef pk dialog js skip none cons ex ts) := by
  intro c st itemRef pk dialog js skip cons ex ts t
  refine ⟨?_, ?_, ?_⟩
  · intro h0 h6
    exact ⟨gwu_tref_short c st itemRef "buy" pk dialog js skip cons ex ts t h0 h6,
           gwu_tref_short c st itemRef "add" pk dialog js skip cons ex ts t h0 h6⟩
  · intro h6
    obtain ⟨hb1, hb2⟩ := gwu_tref_long c st itemRef "buy" pk dialog js skip cons ex ts t h6
    obtain ⟨ha1, ha2⟩ := gwu_tref_long c st itemRef "add" pk dialog js skip cons ex ts t h6
    exact ⟨hb1, hb2, ha1, ha2⟩
  · exact ⟨gwu_tref_empty c st itemRef "buy" pk dialog js skip cons ex ts,
           gwu_tref_empty c st itemRef "add" pk dialog js skip cons ex ts⟩

/-- Counterexample for claim C7 as frozen: the empty transaction reference
has length zero, yet the build succeeds and stores no tref parameter,
because the source guards the length check behind a truthiness test. -/
theorem claim_C7_counterexample :
    Except.isOk (get_buy_url cEx stEx 0 none true false false (some "") false none 7).1
        = true ∧
    getk (storeRead ((get_buy_url cEx stEx 0 none true false false (some "") false
        none 7).2) 1) "tref" = none := by
  constructor
  · rfl
  · rfl

/-- Witness for claim C7: a five character reference is rejected with the
APIException, and a six character reference is stored as the tref
parameter with the build succeeding. -/
theorem claim_C7_witness :
    (get_buy_url cEx stEx 0 none true false false (some "abcde") false none 7).1 =
      Except.error APIErr.apiException ∧
    getk (storeRead ((get_buy_url cEx stEx 0 none true false false (some "abcdef")
        false none 7).2) 1) "tref" = some (Value.str "abcdef") :=
  ⟨((claim_C7_transaction_reference cEx stEx 0 none true false false false none 7
      "abcde").1 (by decide) (by decide)).1,
   ((claim_C7_transaction_reference cEx stEx 0 none true false false false none 7
      "abcdef").2.1 (by decide)).2.1⟩

/-- Claim C9: building a buy or add URL leaves the item definition data
map unchanged in the store, whatever flags are passed, because the builder
works on a fresh copy; in particular a second build with the same item
definition reads the original map. -/
theorem claim_C9_item_map_frame :
    ∀ (c : Client) (st : Store) (itemRef : Nat) (pk : Option String)
      (dialog js skip : Bool) (tref : Option String) (cons : Bool)
      (ex : Option Int) (ts : Nat), itemRef < st.maps.length →
    storeRead ((get_buy_url c st itemRef pk dialog js skip tref cons ex ts).2)
        itemRef = storeRead st itemRef ∧
    storeRead ((get_add_url c st itemRef pk dialog js skip tref cons ex ts).2)
        itemRef = storeRead st itemRef :=
  fun c st itemRef pk dialog js skip tref cons ex ts h =>
    ⟨gwu_frame c st itemRef "buy" pk dialog js skip tref cons ex ts h,
     gwu_frame c st itemRef "add" pk dialog js skip tref cons ex ts h⟩

/-- Witness for claim C9: a build with every optional flag set leaves the
stored item definition map of the example store untouched. -/
theorem claim_C9_witness :
    storeRead ((get_buy_url cEx stEx 0 none true true true (some "abcdef") true
        (some 5) 7).2) 0 = storeRead stEx 0 ∧
    storeRead ((get_add_url cEx stEx 0 none true true true (some "abcdef") true
        (some 5) 7).2) 0 = storeRead stEx 0 :=
  claim_C9_item_map_frame cEx stEx 0 none true true true (some "abcdef") true
    (some 5) 7 (by decide)

/-- Claim C2 as amended: the token bootstrap, identify, controls links,
controls balance, buy and add flows return the base URL with the signed
encoded parameter string as query, and each such query contains the hmac
signature parameter; the login, signup and logout dialog builders do not
call the Signer: they assemble the account dialog URL directly from the
next URL, the optional jsevents flag and the provider key, and wrap it in
the dialog-api indirection, so no signature parameter is involved. -/
theorem claim_C2_url_builders :
    ∀ (c : Client) (rt : String) (ic : Option String) (next_url : String)
      (css fl : Option String) (g lg li su lsu js : Bool) (xdm : String) (ts : Nat)
      (data : ParamMap) (page : String) (pk : Option String) (dialog : Bool),
    occursInStr "hmac=" (get_gettoken_redirect c rt ts) = true ∧
    occursInStr "hmac=" (get_identify_url c ic ts) = true ∧
    occursInStr "hmac="
      (get_controls_links_url c next_url css fl g lg li su lsu js xdm ts) = true ∧
    occursInStr "hmac=" (get_controls_balance_url c fl xdm ts) = true ∧
    occursInStr "hmac=" (web_url_core c data page pk dialog ts) = true ∧
    get_login_dialog_url c next_url js = get_dialog_api_url c
      (c.web_root ++ "/account/dialog/login?next=" ++ quote_plus next_url ++
        (if js then "&jsevents=1" else "") ++ "&cp=" ++ c.cp_key) ∧
    get_signup_dialog_url c next_url js = get_dialog_api_url c
      (c.web_root ++ "/account/dialog/signup?next=" ++ quote_plus next_url ++
        (if js then "&jsevents=1" else "") ++ "&cp=" ++ c.cp_key) ∧
    get_logout_dialog_url c next_url js = get_dialog_api_url c
      (c.web_root ++ "/account/dialog/logout?next=" ++ quote_plus next_url ++
        (if js then "&jsevents=1" else "") ++ "&cp=" ++ c.cp_key) := by
  intro c rt ic next_url css fl g lg li su lsu js xdm ts data page pk dialog
  refine ⟨?_, ?_, ?_, ?_, ?_, rfl, rfl, rfl⟩
  · exact occursInStr_sign_suffix _ _ _ _ _ _
  · simp only [get_identify_url]
    exact occursInStr_sign_suffix _ _ _ _ _ _
  · simp only [get_controls_links_url]
    exact occursInStr_sign_suffix _ _ _ _ _ _
  · simp only [get_controls_balance_url]
    exact occursInStr_sign_suffix _ _ _ _ _ _
  · simp only [web_url_core]
    exact occursInStr_sign_suffix _ _ _ _ _ _

/-- Counterexample for claim C2 as frozen: at concrete inputs, none of the
login, signup and logout dialog URLs contains a signature parameter, while
every signed query string contains the hmac parameter by
construction. -/
theorem claim_C2_counterexample :
    occursInStr "hmac=" (get_login_dialog_url cEx "http://x/" false) = false ∧
    occursInStr "hmac=" (get_signup_dialog_url cEx "http://x/" false) = false ∧
    occursInStr "hmac=" (get_logout_dialog_url cEx "http://x/" false) = false := by
  refine ⟨?_, ?_, ?_⟩ <;> rfl

end LaterPay
